import Mathlib

/-!
Shallow embedding of the rate-limiting and caching subsystem of the
e-commerce API (src/rate_limit.py and src/cache.py), together with proofs
about the embedded operations.

Modelling conventions:
* Python wall-clock times (`time.time()`, float seconds) are modelled as
  rationals (`ℚ`); Python `int` as `ℤ`.
* Python dictionaries are modelled as association lists over `String` keys
  (`lookupD` / `setD` / `delD` below); `collections.defaultdict(list)` reads
  missing keys as `[]` (`lookupTimes`).
* The shared Redis store is modelled in two states: unreachable
  (`get_redis_client()` returns `None`, so the code takes the in-process
  fallback path) or reachable and healthy.  Transient `redis.RedisError`s
  are not modelled.  For a reachable store, an entry `(k, v, e)` of
  `CacheState.redisStore` stands for the serialized string
  `json.dumps v` stored under `k` with absolute expiry time `e`; reading it
  back yields `v` again because `json.loads (json.dumps v) = v` for
  JSON-serializable `v`.
* Python exceptions reaching the caller are modelled with `Except`.
-/

set_option autoImplicit false

/-- Python `int(q)` on a float/rational: truncation toward zero. -/
def pyInt (q : ℚ) : Int := q.num.tdiv q.den

/-! ## Python dictionaries as association lists -/

/-- `d.get(k)` / `k in d` lookup on a Python dict modelled as an association
list (keys are unique in any list built from `[]` by `setD`/`delD`). -/
def lookupD {β : Type} (l : List (String × β)) (k : String) : Option β :=
  (l.find? (fun p => p.1 = k)).map (fun p => p.2)

/-- `d[k] = v` on a Python dict: replace the binding if present, else append. -/
def setD {β : Type} : List (String × β) → String → β → List (String × β)
  | [], k, v => [(k, v)]
  | (k0, v0) :: rest, k, v =>
    if k0 = k then (k, v) :: rest else (k0, v0) :: setD rest k v

/-- `del d[k]` on a Python dict. -/
def delD {β : Type} (l : List (String × β)) (k : String) : List (String × β) :=
  l.filter (fun p => ¬ p.1 = k)

@[simp] theorem lookupD_nil {β : Type} (k : String) :
    lookupD ([] : List (String × β)) k = Option.none := rfl

@[simp] theorem lookupD_cons {β : Type} (k0 : String) (v0 : β)
    (rest : List (String × β)) (k : String) :
    lookupD ((k0, v0) :: rest) k =
      if k0 = k then Option.some v0 else lookupD rest k := by
  by_cases h : k0 = k <;> simp [lookupD, List.find?, h]

@[simp] theorem lookupD_setD_self {β : Type} (l : List (String × β))
    (k : String) (v : β) : lookupD (setD l k v) k = Option.some v := by
  induction l with
  | nil => simp [setD]
  | cons hd tl ih =>
    obtain ⟨k0, v0⟩ := hd
    by_cases h : k0 = k <;> simp [setD, h, ih]

theorem lookupD_setD_ne {β : Type} (l : List (String × β))
    (k k2 : String) (v : β) (hne : k ≠ k2) :
    lookupD (setD l k v) k2 = lookupD l k2 := by
  induction l with
  | nil => simp [setD, hne]
  | cons hd tl ih =>
    obtain ⟨k0, v0⟩ := hd
    by_cases h : k0 = k
    · subst h
      simp [setD, hne]
    · simp [setD, h, ih]

/-! ## Rate limiting (src/rate_limit.py), in-process fallback store

`_memory_storage : Dict[str, list]` is a `defaultdict(list)` mapping a
client id to the list of its recorded request timestamps. -/

/-- The in-memory fallback storage `_memory_storage`. -/
abbrev Storage := List (String × List ℚ)

/-- Reading `_memory_storage[client_id]`: a `defaultdict(list)` yields `[]`
for a missing key. -/
def lookupTimes (s : Storage) (c : String) : List ℚ := (lookupD s c).getD []

/-- Result tuple `(is_allowed, remaining, limit, reset_time)` of a rate-limit
check. -/
structure RLResult where
  is_allowed : Bool
  remaining : Int
  limit : Int
  reset_time : Int
deriving DecidableEq, Repr

/-- `_memory_rate_limit(client_id, limit, window_seconds, current_time)` from
src/rate_limit.py: prune timestamps `≤ window_start`, count the survivors,
append the current timestamp only when under the limit, and return the
result tuple together with the updated storage. -/
def _memory_rate_limit (client_id : String) (limit : Int)
    (window_seconds : Int) (current_time : ℚ) (storage : Storage) :
    RLResult × Storage :=
  let window_start : ℚ := current_time - (window_seconds : ℚ)
  -- _memory_storage[client_id] = [t for t in _memory_storage[client_id] if t > window_start]
  let kept : List ℚ := (lookupTimes storage client_id).filter
    (fun t => window_start < t)
  let request_count : Int := kept.length
  let reset_time : Int := pyInt (current_time + (window_seconds : ℚ))
  if request_count < limit then
    (⟨true, limit - request_count - 1, limit, reset_time⟩,
      setD storage client_id (kept ++ [current_time]))
  else
    (⟨false, 0, limit, reset_time⟩, setD storage client_id kept)

/-- `settings.RATE_LIMIT_REQUESTS` (src/core/config.py). -/
def RATE_LIMIT_REQUESTS : Int := 100

/-- `settings.RATE_LIMIT_WINDOW_SECONDS` (src/core/config.py). -/
def RATE_LIMIT_WINDOW_SECONDS : Int := 60

/-- Python `x or default` applied to an `Optional[int]` argument: `None` and
`0` are falsy and replaced by the default. -/
def orDefault (x : Option Int) (default : Int) : Int :=
  match x with
  | Option.none => default
  | Option.some v => if v = 0 then default else v

/-- `sliding_window_rate_limit(client_id, limit, window_seconds)` from
src/rate_limit.py, in the state where the shared store is unreachable
(`get_redis_client()` returns `None`), so the call resolves its defaulted
arguments and delegates to the in-process fallback `_memory_rate_limit`. -/
def sliding_window_rate_limit (client_id : String)
    (limit window_seconds : Option Int) (current_time : ℚ)
    (storage : Storage) : RLResult × Storage :=
  let l := orDefault limit RATE_LIMIT_REQUESTS
  let w := orDefault window_seconds RATE_LIMIT_WINDOW_SECONDS
  _memory_rate_limit client_id l w current_time storage

/-- `RateLimitError(retry_after)` from src/core/exceptions.py (the other
constructor arguments are fixed constants). -/
structure RateLimitError where
  retry_after : Int
deriving DecidableEq, Repr

/-- `rate_limit_dependency(request)` from src/rate_limit.py (fallback-store
state): run the check for the request's client id, expose the three
`request.state.rate_limit_*` header values, and raise `RateLimitError` with
`retry_after = reset_time - int(time.time())` when not allowed.  The second
`time.time()` reading at the raise site is modelled as the same clock value
`now` used by the check. -/
def rate_limit_dependency (client_id : String) (now : ℚ) (storage : Storage) :
    Except RateLimitError Unit × (Int × Int × Int) × Storage :=
  let p := sliding_window_rate_limit client_id Option.none Option.none now storage
  let headers := (p.1.remaining, p.1.limit, p.1.reset_time)
  if p.1.is_allowed then (Except.ok (), headers, p.2)
  else (Except.error ⟨p.1.reset_time - pyInt now⟩, headers, p.2)

/-- A sequence of `sliding_window_rate_limit` calls for one client at the
given successive times, threading the fallback storage through. -/
def callResults (client : String) (limit window : Option Int) :
    List ℚ → Storage → List RLResult × Storage
  | [], storage => ([], storage)
  | t :: rest, storage =>
    let p := sliding_window_rate_limit client limit window t storage
    let q := callResults client limit window rest p.2
    (p.1 :: q.1, q.2)

/-- A sequence of `_memory_rate_limit` calls sharing one limit; each call
supplies its own client id, window and time. -/
def runMemCalls (limit : Int) :
    List (String × Int × ℚ) → Storage → Storage
  | [], s => s
  | (cid, w, t) :: rest, s =>
    runMemCalls limit rest (_memory_rate_limit cid limit w t s).2

/-! ## Caching (src/cache.py)

`_memory_cache : dict[str, tuple[Any, float]]` maps a key to the pair
`(value, expires_at)`.  Values are modelled by `PyVal`, a universe of Python
values closed under the JSON atoms, string-to-int dictionaries (enough for
the literal payloads appearing in the repository's scenarios), and opaque
objects with no JSON representation. -/

/-- A Python value as handled by the cache layer. -/
inductive PyVal where
  /-- Python `None`; also the result of a `get` miss. -/
  | none
  /-- A Python `bool`. -/
  | bool (b : Bool)
  /-- A Python `int`. -/
  | int (n : Int)
  /-- A Python `str`. -/
  | str (s : String)
  /-- A Python `dict` with string keys and int values. -/
  | dictI (entries : List (String × Int))
  /-- An opaque object that `json.dumps` cannot serialize. -/
  | obj (oid : Nat)
deriving DecidableEq, Repr

/-- A Python exception escaping a cache-layer call. -/
inductive PyErr where
  /-- `TypeError`, raised by `json.dumps` on a non-serializable value. -/
  | typeError
deriving DecidableEq, Repr

/-- `json.dumps(v)`: `Option.some` of the serialized text for serializable
values, `Option.none` when the call raises `TypeError`.  (String escaping is
not modelled; no theorem depends on the serialized text.) -/
def jsonDumps : PyVal → Option String
  | PyVal.none => Option.some "null"
  | PyVal.bool true => Option.some "true"
  | PyVal.bool false => Option.some "false"
  | PyVal.int n => Option.some (toString n)
  | PyVal.str s => Option.some ("\"" ++ s ++ "\"")
  | PyVal.dictI entries =>
    Option.some ("\x7b" ++
      String.intercalate ", "
        (entries.map (fun p => "\"" ++ p.1 ++ "\": " ++ toString p.2)) ++
      "\x7d")
  | PyVal.obj _ => Option.none

/-- Whether `json.dumps` succeeds on a value. -/
def jsonSerializable (v : PyVal) : Bool := (jsonDumps v).isSome

/-- The state of the cache layer: reachability of the shared store, the
shared store's contents (key, decoded value, absolute expiry — see the file
comment), and the in-process fallback `_memory_cache`. -/
structure CacheState where
  redisUp : Bool
  redisStore : List (String × PyVal × ℚ)
  mem : List (String × PyVal × ℚ)
deriving DecidableEq, Repr

/-- The fallback tail of `get_cache`: consult `_memory_cache`, return the
value while `time.time() < expires_at`, and lazily evict an expired entry. -/
def mem_get (key : String) (now : ℚ) (st : CacheState) : PyVal × CacheState :=
  match lookupD st.mem key with
  | Option.some (v, expires_at) =>
    if now < expires_at then (v, st)
    else (PyVal.none, { st with mem := delD st.mem key })
  | Option.none => (PyVal.none, st)

/-- `get_cache(key)` from src/cache.py: with the shared store reachable, a
live entry under `cache:key` is returned directly (a stored `"null"` string
is truthy, so even a cached `None` is returned from this branch); an absent
or expired shared entry falls through to the fallback store. -/
def get_cache (key : String) (now : ℚ) (st : CacheState) :
    PyVal × CacheState :=
  if st.redisUp then
    match lookupD st.redisStore ("cache:" ++ key) with
    | Option.some (v, expires_at) =>
      if now < expires_at then (v, st) else mem_get key now st
    | Option.none => mem_get key now st
  else mem_get key now st

/-- `set_cache(key, value, ttl_seconds)` from src/cache.py: with the shared
store reachable, `json.dumps(value)` is evaluated first and its `TypeError`
on a non-serializable value propagates (the surrounding `except` clause only
catches `redis.RedisError`); otherwise `setex` stores the entry.  With the
shared store unreachable, the raw value goes into the fallback store with
absolute expiry `time.time() + ttl_seconds`, and the call returns `True`. -/
def set_cache (key : String) (value : PyVal) (ttl_seconds : Int) (now : ℚ)
    (st : CacheState) : Except PyErr (Bool × CacheState) :=
  if st.redisUp then
    match jsonDumps value with
    | Option.none => Except.error PyErr.typeError
    | Option.some _ =>
      Except.ok (true,
        { st with redisStore := (setD st.redisStore ("cache:" ++ key)
            (value, now + (ttl_seconds : ℚ))) })
  else
    Except.ok (true,
      { st with mem := setD st.mem key (value, now + (ttl_seconds : ℚ)) })

/-- Bool-valued list prefix test (`isPrefixOfCh p l` iff `p` is a prefix of
`l`). -/
def isPrefixOfCh : List Char → List Char → Bool
  | [], _ => true
  | _ :: _, [] => false
  | p :: ps, h :: hs => p = h && isPrefixOfCh ps hs

/-- Bool-valued substring test on character lists (Python `pat in hay`). -/
def isSubstrCh (pat : List Char) : List Char → Bool
  | [] => isPrefixOfCh pat []
  | h :: t => isPrefixOfCh pat (h :: t) || isSubstrCh pat t

/-- Python `pat in hay` on strings: substring containment. -/
def strIn (pat hay : String) : Bool := isSubstrCh pat.toList hay.toList

/-- `pattern.replace("*", "")`: strip every wildcard marker. -/
def stripStar (pattern : String) : String :=
  String.mk (pattern.toList.filter (fun c => ¬ c = '*'))

/-- Redis `KEYS` glob matching restricted to the `*` wildcard (the only glob
construct the repository's patterns use). -/
def globMatch : List Char → List Char → Bool
  | [], s => s.isEmpty
  | '*' :: ps, s =>
    globMatch ps s ||
      (match s with
       | [] => false
       | _ :: t => globMatch ('*' :: ps) t)
  | p :: ps, s =>
    match s with
    | [] => false
    | c :: cs => p = c && globMatch ps cs
termination_by p s => (p.length, s.length)

/-- `invalidate_cache(pattern)` from src/cache.py: with the shared store
reachable, delete the keys matching the glob `cache:pattern` and count them;
then, unconditionally, delete every fallback-store key that contains
`pattern.replace("*", "")` as a substring, incrementing the count per key. -/
def invalidate_cache (pattern : String) (st : CacheState) : Int × CacheState :=
  let count0 : Int :=
    if st.redisUp then
      ((st.redisStore.filter
        (fun e => globMatch ("cache:" ++ pattern).toList e.1.toList)).length : Int)
    else 0
  let st1 :=
    if st.redisUp then
      { st with redisStore := (st.redisStore.filter
          (fun e => ¬ globMatch ("cache:" ++ pattern).toList e.1.toList)) }
    else st
  let memMatch : String × PyVal × ℚ → Bool :=
    fun e => strIn (stripStar pattern) e.1
  (count0 + ((st1.mem.filter memMatch).length : Int),
    { st1 with mem := st1.mem.filter (fun e => ¬ memMatch e) })

/-- The cache key built by the `cached` decorator: function name prefixed by
`key_prefix`, plus the keyword arguments sorted by name and joined as
`k=v` (positional arguments do not contribute). -/
def buildCacheKey ( key_prefix fname : String)
    (kwargs : List (String × String)) : String :=
  let base := key_prefix ++ ":" ++ fname
  match kwargs with
  | [] => base
  | _ =>
    base ++ ":" ++
      String.intercalate ":"
        ((kwargs.mergeSort (fun a b => a.1 ≤ b.1)).map
          (fun p => p.1 ++ "=" ++ p.2))

/-- One call of the wrapper produced by the `cached(ttl_seconds, key_prefix)`
decorator from src/cache.py, for an underlying function modelled as
`func : Unit → PyVal` (a plain value result, so the Pydantic `model_dump`
branch does not apply).  Returns the call's result, whether the underlying
function was invoked, and the new cache state. -/
def cached_wrapper ( key_prefix fname : String)
    (kwargs : List (String × String)) (ttl_seconds : Int)
    (func : Unit → PyVal) (now : ℚ) (st : CacheState) :
    Except PyErr (PyVal × Bool × CacheState) :=
  let cache_key := buildCacheKey key_prefix fname kwargs
  let p := get_cache cache_key now st
  -- if cached_value is not None: return cached_value
  if p.1 ≠ PyVal.none then Except.ok (p.1, false, p.2)
  else
    let result := func ()
    match set_cache cache_key result ttl_seconds now p.2 with
    | Except.error e => Except.error e
    | Except.ok q => Except.ok (result, true, q.2)

/-! ## Supporting lemmas -/

theorem lookupTimes_setD_self (s : Storage) (c : String) (ts : List ℚ) :
    lookupTimes (setD s c ts) c = ts := by
  simp [lookupTimes]

theorem lookupTimes_setD_ne (s : Storage) (c c2 : String) (ts : List ℚ)
    (h : c ≠ c2) : lookupTimes (setD s c ts) c2 = lookupTimes s c2 := by
  simp [lookupTimes, lookupD_setD_ne s c c2 ts h]

theorem filter_replicate_self {α : Type} (p : α → Bool) (a : α) (n : Nat)
    (h : p a = true) : (List.replicate n a).filter p = List.replicate n a := by
  induction n with
  | zero => rfl
  | succ n ih => simp [List.replicate_succ, List.filter_cons, h, ih]

theorem sliding_window_some_eq (c : String) (L w : Int) (t : ℚ) (s : Storage)
    (hL : L ≠ 0) (hw : w ≠ 0) :
    sliding_window_rate_limit c (Option.some L) (Option.some w) t s =
      _memory_rate_limit c L w t s := by
  simp [sliding_window_rate_limit, orDefault, hL, hw]

/-- One `_memory_rate_limit` call at time `t` against a storage holding `k`
copies of the same timestamp `t` for the client: nothing is pruned, the call
is allowed exactly when `k < limit`, and an allowed call appends one more
copy of `t`. -/
theorem mem_rate_limit_const_step (c : String) (L w : Int) (t : ℚ) (k : Nat)
    (s : Storage) (hw : 0 < w) (hs : lookupTimes s c = List.replicate k t) :
    _memory_rate_limit c L w t s =
      if (k : Int) < L then
        (⟨true, L - (k : Int) - 1, L, pyInt (t + (w : ℚ))⟩,
          setD s c (List.replicate (k + 1) t))
      else (⟨false, 0, L, pyInt (t + (w : ℚ))⟩,
        setD s c (List.replicate k t)) := by
  have hwq : (0 : ℚ) < (w : ℚ) := by exact_mod_cast hw
  have hkeep : (List.replicate k t).filter
      (fun x => decide (t - (w : ℚ) < x)) = List.replicate k t := by
    apply filter_replicate_self
    simp only [decide_eq_true_eq]
    linarith
  unfold _memory_rate_limit
  simp only [hs, hkeep, List.length_replicate, ← List.replicate_succ']

theorem callResults_fst_cons (client : String) (lo wo : Option Int)
    (t : ℚ) (rest : List ℚ) (s : Storage) :
    (callResults client lo wo (t :: rest) s).1 =
      (sliding_window_rate_limit client lo wo t s).1 ::
        (callResults client lo wo rest
          (sliding_window_rate_limit client lo wo t s).2).1 := rfl

/-- Constant-time call sequences: starting from a storage holding `k` copies
of `t` for the client, the `i`-th of `n` further calls at time `t` is allowed
with `remaining = limit - (k + i) - 1` while `k + i < limit`, and denied with
`remaining = 0` afterwards. -/
theorem callResults_const_aux (c : String) (L w : Int) (t : ℚ)
    (hL : L ≠ 0) (hw : 0 < w) :
    ∀ (n k : Nat) (s : Storage), lookupTimes s c = List.replicate k t →
      (callResults c (Option.some L) (Option.some w)
          (List.replicate n t) s).1 =
        (List.range n).map (fun i =>
          if ((k + i : Nat) : Int) < L then
            ⟨true, L - ((k + i : Nat) : Int) - 1, L, pyInt (t + (w : ℚ))⟩
          else ⟨false, 0, L, pyInt (t + (w : ℚ))⟩) := by
  intro n
  induction n with
  | zero => intro k s _; rfl
  | succ n ih =>
    intro k s hs
    rw [List.replicate_succ, callResults_fst_cons,
      sliding_window_some_eq c L w t s hL (by positivity),
      mem_rate_limit_const_step c L w t k s hw hs]
    rw [List.range_succ_eq_map, List.map_cons, List.map_map]
    by_cases hk : (k : Int) < L
    · simp only [if_pos hk]
      rw [ih (k + 1) (setD s c (List.replicate (k + 1) t))
        (lookupTimes_setD_self s c _)]
      have hfun : ∀ i : Nat,
          (if ((k + 1 + i : Nat) : Int) < L then
            (⟨true, L - ((k + 1 + i : Nat) : Int) - 1, L,
              pyInt (t + (w : ℚ))⟩ : RLResult)
          else ⟨false, 0, L, pyInt (t + (w : ℚ))⟩) =
          ((fun i =>
            if ((k + i : Nat) : Int) < L then
              (⟨true, L - ((k + i : Nat) : Int) - 1, L,
                pyInt (t + (w : ℚ))⟩ : RLResult)
            else ⟨false, 0, L, pyInt (t + (w : ℚ))⟩) ∘ Nat.succ) i := by
        intro i
        have hsw : k + 1 + i = k + Nat.succ i := by omega
        simp only [Function.comp_apply, hsw]
      rw [List.map_congr_left (fun i _ => hfun i)]
      simp only [Nat.add_zero, if_pos hk]
    · simp only [if_neg hk]
      rw [ih k (setD s c (List.replicate k t)) (lookupTimes_setD_self s c _)]
      have hnot : ∀ m : Nat, ¬ ((k + m : Nat) : Int) < L := by
        intro m
        push_cast
        omega
      congr 1
      · rw [if_neg (hnot 0)]
      · apply List.map_congr_left
        intro i _
        simp only [Function.comp_apply, if_neg (hnot _)]

/-! ## Claims -/

/-- C1: for every client identity, limit `L ≥ 1` and positive window, a batch
of `L + 1` immediately successive `check` calls (modelled as `L + 1` calls at
one clock reading) yields `allowed = true` for the first `L` calls with
`remaining` decreasing from `L - 1` down to `0`, and `allowed = false` with
`remaining = 0` for the `(L+1)`-th call; every call reports the same `limit`
and the same `reset_at = int(t + w)`. -/
theorem C1_check_sequence (c : String) (L : Nat) (w : Int) (t : ℚ)
    (hL : 1 ≤ L) (hw : 0 < w) :
    (callResults c (Option.some (L : Int)) (Option.some w)
        (List.replicate (L + 1) t) []).1 =
      (List.range (L + 1)).map (fun i =>
        if i < L then
          ⟨true, (L : Int) - (i : Int) - 1, (L : Int), pyInt (t + (w : ℚ))⟩
        else ⟨false, 0, (L : Int), pyInt (t + (w : ℚ))⟩) := by
  have hL0 : (L : Int) ≠ 0 := by omega
  have h := callResults_const_aux c (L : Int) w t hL0 hw (L + 1) 0 [] rfl
  rw [h]
  apply List.map_congr_left
  intro i _
  by_cases hiL : i < L
  · have h1 : ((0 + i : Nat) : Int) < (L : Int) := by push_cast; omega
    rw [if_pos h1, if_pos hiL]
    have h2 : ((0 + i : Nat) : Int) = (i : Int) := by push_cast; omega
    rw [h2]
  · have h1 : ¬ ((0 + i : Nat) : Int) < (L : Int) := by push_cast; omega
    rw [if_neg h1, if_neg hiL]

/-- Witness for C1: the spec's concrete scenario — `limit = 3`,
`window_seconds = 60`, four calls in immediate succession at time 1000 give
`[(true,2,3,1060), (true,1,3,1060), (true,0,3,1060), (false,0,3,1060)]`. -/
theorem C1_check_sequence_witness :
    (callResults "clientA" (Option.some 3) (Option.some 60)
        [1000, 1000, 1000, 1000] []).1 =
      [⟨true, 2, 3, 1060⟩, ⟨true, 1, 3, 1060⟩, ⟨true, 0, 3, 1060⟩,
        ⟨false, 0, 3, 1060⟩] :=
  (C1_check_sequence "clientA" 3 60 1000 (by norm_num) (by norm_num)).trans
    (by
      rw [show List.range (3 + 1) = [0, 1, 2, 3] from rfl]
      norm_num [pyInt])

/-- Counterexample for C2: with `limit = 1` and two calls at the same time,
the second call is denied and the denied call does not append its timestamp —
the stored list stays `[0]` instead of becoming `[0, 0]`. -/
theorem C2_counterexample :
    ((_memory_rate_limit "clientA" 1 60 0
        (_memory_rate_limit "clientA" 1 60 0 []).2).1).is_allowed = false ∧
      lookupTimes ((_memory_rate_limit "clientA" 1 60 0
        (_memory_rate_limit "clientA" 1 60 0 []).2).2) "clientA" = [0] ∧
      ([0] : List ℚ) ≠ [0, 0] := by
  norm_num [_memory_rate_limit, lookupTimes, lookupD, setD, pyInt,
    List.filter]

/-- C2 (amended): the in-process fallback records the current request's
timestamp only when the request is allowed; a denied `_memory_rate_limit`
call leaves the identity's list equal to its pruned value, with nothing
appended.  (The shared-store path, by contrast, adds the timestamp
unconditionally inside its pipeline.) -/
theorem C2_memory_records_only_allowed (c : String) (L w : Int) (t : ℚ)
    (s : Storage) :
    lookupTimes ((_memory_rate_limit c L w t s).2) c =
      (if ((_memory_rate_limit c L w t s).1).is_allowed then
        ((lookupTimes s c).filter (fun x => t - (w : ℚ) < x)) ++ [t]
      else (lookupTimes s c).filter (fun x => t - (w : ℚ) < x)) := by
  unfold _memory_rate_limit
  by_cases h : (((lookupTimes s c).filter
      (fun x => decide (t - (w : ℚ) < x))).length : Int) < L
  · simp [h, lookupTimes_setD_self]
  · simp [h, lookupTimes_setD_self]

/-- Counterexample for C3: with the shared store reachable, caching a
non-JSON-serializable value raises `TypeError` to the caller (the `except`
clause around `setex` only catches `redis.RedisError`). -/
theorem C3_counterexample :
    set_cache "k" (PyVal.obj 0) 60 0 ⟨true, [], []⟩ =
      Except.error PyErr.typeError := rfl

/-- C3 (amended): `set_cache` returns `success = true` and raises nothing
exactly when the shared store is unreachable (the fallback path stores the
raw value) or the value is JSON-serializable; with the shared store reachable
and a non-serializable value, the serialization `TypeError` propagates. -/
theorem C3_set_cache_success_iff (key : String) (value : PyVal)
    (ttl : Int) (now : ℚ) (st : CacheState) :
    (∃ st2, set_cache key value ttl now st = Except.ok (true, st2)) ↔
      (st.redisUp = false ∨ jsonSerializable value = true) := by
  unfold set_cache jsonSerializable
  cases hr : st.redisUp
  · simp [hr]
  · cases hv : jsonDumps value with
    | none => simp [hv]
    | some str => simp [hv]

/-- The allowed branch of `_memory_rate_limit`, as an equation guarded by
the branch condition. -/
theorem mem_rate_limit_pos (c : String) (L w : Int) (t : ℚ) (s : Storage)
    (h : (((lookupTimes s c).filter
      (fun x => decide (t - (w : ℚ) < x))).length : Int) < L) :
    _memory_rate_limit c L w t s =
      (⟨true, L - (((lookupTimes s c).filter
          (fun x => decide (t - (w : ℚ) < x))).length : Int) - 1, L,
          pyInt (t + (w : ℚ))⟩,
        setD s c (((lookupTimes s c).filter
          (fun x => decide (t - (w : ℚ) < x))) ++ [t])) := by
  unfold _memory_rate_limit
  simp [h]

/-- The denied branch of `_memory_rate_limit`, as an equation guarded by the
negated branch condition. -/
theorem mem_rate_limit_neg (c : String) (L w : Int) (t : ℚ) (s : Storage)
    (h : ¬ (((lookupTimes s c).filter
      (fun x => decide (t - (w : ℚ) < x))).length : Int) < L) :
    _memory_rate_limit c L w t s =
      (⟨false, 0, L, pyInt (t + (w : ℚ))⟩,
        setD s c ((lookupTimes s c).filter
          (fun x => decide (t - (w : ℚ) < x)))) := by
  unfold _memory_rate_limit
  simp [h]

/-- C4: after any in-memory check at time `t` with positive window `w`, every
timestamp recorded for the identity is strictly newer than
`window_start = t - w` (expired entries are removed, and the kept count is
computed from the pruned list only); consequently, if every previously
recorded timestamp is at least `window_seconds` old, the next check is
allowed whenever `limit ≥ 1`. -/
theorem C4_window_expiry (c : String) (L w : Int) (t : ℚ) (s : Storage)
    (hw : 0 < w) :
    (∀ x ∈ lookupTimes ((_memory_rate_limit c L w t s).2) c,
      t - (w : ℚ) < x) ∧
    (1 ≤ L → (∀ x ∈ lookupTimes s c, x ≤ t - (w : ℚ)) →
      ((_memory_rate_limit c L w t s).1).is_allowed = true) := by
  have hwq : (0 : ℚ) < (w : ℚ) := by exact_mod_cast hw
  constructor
  · intro x hx
    rw [C2_memory_records_only_allowed] at hx
    by_cases h : ((_memory_rate_limit c L w t s).1).is_allowed
    · rw [if_pos h] at hx
      rcases List.mem_append.mp hx with hx | hx
      · have := List.of_mem_filter hx
        simpa using this
      · have hxt : x = t := List.mem_singleton.mp hx
        subst hxt
        linarith
    · rw [if_neg h] at hx
      have := List.of_mem_filter hx
      simpa using this
  · intro hL hold
    have hnil : (lookupTimes s c).filter
        (fun y => decide (t - (w : ℚ) < y)) = [] := by
      rw [List.filter_eq_nil_iff]
      intro a ha
      simp only [decide_eq_true_eq, not_lt]
      exact hold a ha
    rw [mem_rate_limit_pos c L w t s (by rw [hnil]; simpa using hL)]

/-- Witness for C4: a client exhausted at time 940 with `limit = 1` and
`window_seconds = 60` is allowed again at time 1000. -/
theorem C4_window_expiry_witness :
    ((_memory_rate_limit "c" 1 60 1000 [("c", [940])]).1).is_allowed = true :=
  (C4_window_expiry "c" 1 60 1000 [("c", [940])] (by norm_num)).2
    (by norm_num)
    (by
      intro x hx
      have hx2 : x ∈ [(940 : ℚ)] := by
        simpa [lookupTimes] using hx
      have hx3 : x = (940 : ℚ) := List.mem_singleton.mp hx2
      rw [hx3]
      norm_num)

/-- `sliding_window_rate_limit` with both optional arguments omitted uses
the configured defaults. -/
theorem sliding_window_defaults_eq (c : String) (t : ℚ) (s : Storage) :
    sliding_window_rate_limit c Option.none Option.none t s =
      _memory_rate_limit c RATE_LIMIT_REQUESTS RATE_LIMIT_WINDOW_SECONDS t s :=
  rfl

/-- C7: `rate_limit_dependency` raises `RateLimitError` exactly when the
check for the request's client identity is denied; the raised error carries
`retry_after = reset_at - int(now)`, and an allowed check raises nothing. -/
theorem C7_dependency_raises_iff (c : String) (now : ℚ) (s : Storage) :
    ((rate_limit_dependency c now s).1 = Except.error
        ⟨((sliding_window_rate_limit c Option.none Option.none now s).1).reset_time
          - pyInt now⟩ ↔
      ((sliding_window_rate_limit c Option.none Option.none now s).1).is_allowed
        = false) ∧
    (((sliding_window_rate_limit c Option.none Option.none now s).1).is_allowed
        = true → (rate_limit_dependency c now s).1 = Except.ok ()) ∧
    (∀ e : RateLimitError, (rate_limit_dependency c now s).1 = Except.error e →
      e.retry_after =
        ((sliding_window_rate_limit c Option.none Option.none now s).1).reset_time
          - pyInt now) := by
  cases h : ((sliding_window_rate_limit c Option.none Option.none now s).1).is_allowed
  · have hmain : (rate_limit_dependency c now s).1 = Except.error
        ⟨((sliding_window_rate_limit c Option.none Option.none now s).1).reset_time
          - pyInt now⟩ := by
      unfold rate_limit_dependency
      simp [h]
    refine ⟨⟨fun _ => rfl, fun _ => hmain⟩, ?_, ?_⟩
    · intro htrue
      exact absurd htrue (by simp)
    · intro e he
      rw [hmain] at he
      injection he with h2
      rw [← h2]
  · have hmain : (rate_limit_dependency c now s).1 = Except.ok () := by
      unfold rate_limit_dependency
      simp [h]
    refine ⟨?_, fun _ => hmain, ?_⟩
    · constructor
      · intro herr
        rw [hmain] at herr
        exact absurd herr (by simp)
      · intro hfalse
        exact absurd hfalse (by simp)
    · intro e he
      rw [hmain] at he
      exact absurd he (by simp)

/-- Witness for C7: with an empty fallback store and the default limit of
100, the first request from a client raises nothing. -/
theorem C7_dependency_raises_iff_witness :
    (rate_limit_dependency "a" 0 []).1 = Except.ok () :=
  (C7_dependency_raises_iff "a" 0 []).2.1
    (by
      rw [sliding_window_defaults_eq,
        mem_rate_limit_pos "a" RATE_LIMIT_REQUESTS RATE_LIMIT_WINDOW_SECONDS
          0 [] (by norm_num [lookupTimes, RATE_LIMIT_REQUESTS])])

/-- A sequence of `_memory_rate_limit` calls for one client with a fixed
limit and window, at the given successive times. -/
def memCallResults (c : String) (L w : Int) :
    List ℚ → Storage → List RLResult × Storage
  | [], s => ([], s)
  | t :: rest, s =>
    let p := _memory_rate_limit c L w t s
    let q := memCallResults c L w rest p.2
    (p.1 :: q.1, q.2)

theorem memCallResults_fst_cons (c : String) (L w : Int) (t : ℚ)
    (rest : List ℚ) (s : Storage) :
    (memCallResults c L w (t :: rest) s).1 =
      (_memory_rate_limit c L w t s).1 ::
        (memCallResults c L w rest (_memory_rate_limit c L w t s).2).1 := rfl

/-- Across a sequence of calls whose times all lie within one window of each
other and of every initially recorded timestamp, if every call is admitted
then the `remaining` values form a non-increasing chain, all bounded by
`limit - (initial count) - 1`. -/
theorem memCallResults_remaining_aux (c : String) (L w : Int) :
    ∀ (times : List ℚ) (s : Storage),
      (∀ x ∈ lookupTimes s c, ∀ u ∈ times, u - (w : ℚ) < x) →
      (∀ u ∈ times, ∀ u2 ∈ times, u2 - (w : ℚ) < u) →
      (∀ r ∈ (memCallResults c L w times s).1, r.is_allowed = true) →
      List.Chain' (fun a b => b.remaining ≤ a.remaining)
        (memCallResults c L w times s).1 ∧
      ∀ r ∈ (memCallResults c L w times s).1,
        r.remaining ≤ L - ((lookupTimes s c).length : Int) - 1 := by
  intro times
  induction times with
  | nil => intro s _ _ _; exact ⟨List.chain'_nil, by intro r hr; cases hr⟩
  | cons t rest ih =>
    intro s hin hseq hall
    have hkeep : (lookupTimes s c).filter
        (fun x => decide (t - (w : ℚ) < x)) = lookupTimes s c := by
      rw [List.filter_eq_self]
      intro a ha
      simp only [decide_eq_true_eq]
      exact hin a ha t (List.mem_cons_self t rest)
    have hlt : ((lookupTimes s c).length : Int) < L := by
      by_contra hge
      have hneg := mem_rate_limit_neg c L w t s (by rw [hkeep]; exact hge)
      have h1 := hall (_memory_rate_limit c L w t s).1
        (by rw [memCallResults_fst_cons]; exact List.mem_cons_self _ _)
      rw [hneg] at h1
      simp at h1
    have hpos := mem_rate_limit_pos c L w t s
      (by rw [hkeep]; exact hlt)
    rw [hkeep] at hpos
    have hs1 : lookupTimes (_memory_rate_limit c L w t s).2 c =
        lookupTimes s c ++ [t] := by
      rw [hpos, lookupTimes_setD_self]
    have hin2 : ∀ x ∈ lookupTimes (_memory_rate_limit c L w t s).2 c,
        ∀ u ∈ rest, u - (w : ℚ) < x := by
      intro x hx u hu
      rw [hs1] at hx
      rcases List.mem_append.mp hx with hx | hx
      · exact hin x hx u (List.mem_cons_of_mem t hu)
      · have hxt : x = t := List.mem_singleton.mp hx
        rw [hxt]
        exact hseq t (List.mem_cons_self t rest) u (List.mem_cons_of_mem t hu)
    have hseq2 : ∀ u ∈ rest, ∀ u2 ∈ rest, u2 - (w : ℚ) < u := by
      intro u hu u2 hu2
      exact hseq u (List.mem_cons_of_mem t hu) u2 (List.mem_cons_of_mem t hu2)
    have hall2 : ∀ r ∈ (memCallResults c L w rest
        (_memory_rate_limit c L w t s).2).1, r.is_allowed = true := by
      intro r hr
      exact hall r (by
        rw [memCallResults_fst_cons]
        exact List.mem_cons_of_mem _ hr)
    obtain ⟨hchain, hbound⟩ :=
      ih (_memory_rate_limit c L w t s).2 hin2 hseq2 hall2
    have hlen1 : (lookupTimes (_memory_rate_limit c L w t s).2 c).length =
        (lookupTimes s c).length + 1 := by
      rw [hs1]
      simp
    have hr1 : (_memory_rate_limit c L w t s).1 =
        ⟨true, L - ((lookupTimes s c).length : Int) - 1, L,
          pyInt (t + (w : ℚ))⟩ := by
      rw [hpos]
    constructor
    · rw [memCallResults_fst_cons, List.chain'_cons']
      refine ⟨?_, hchain⟩
      intro y hy
      have hb := hbound y (List.mem_of_mem_head? hy)
      rw [hlen1] at hb
      rw [hr1]
      push_cast at hb ⊢
      linarith
    · intro r hr
      rw [memCallResults_fst_cons] at hr
      rcases List.mem_cons.mp hr with hr | hr
      · rw [hr, hr1]
      · have hb := hbound r hr
        rw [hlen1] at hb
        push_cast at hb ⊢
        linarith

/-- C8: for one identity and a fixed limit and window, across any sequence of
successive admitted `check` calls whose timestamps (and any initially
recorded ones) all fall within one window, the returned `remaining` values
are monotonically non-increasing. -/
theorem C8_remaining_monotone (c : String) (L w : Int) (times : List ℚ)
    (s : Storage)
    (hin : ∀ x ∈ lookupTimes s c, ∀ u ∈ times, u - (w : ℚ) < x)
    (hseq : ∀ u ∈ times, ∀ u2 ∈ times, u2 - (w : ℚ) < u)
    (hall : ∀ r ∈ (memCallResults c L w times s).1, r.is_allowed = true) :
    List.Chain' (fun a b => b.remaining ≤ a.remaining)
      (memCallResults c L w times s).1 :=
  (memCallResults_remaining_aux c L w times s hin hseq hall).1

/-- Witness for C8: two admitted calls at times 1000 and 1001 within a
60-second window give remaining values 2 then 1 — a non-increasing chain. -/
theorem C8_remaining_monotone_witness :
    List.Chain' (fun a b => b.remaining ≤ a.remaining)
      (memCallResults "c" 3 60 [1000, 1001] []).1 := by
  have hres : (memCallResults "c" 3 60 [1000, 1001] []).1 =
      [⟨true, 2, 3, 1060⟩, ⟨true, 1, 3, 1061⟩] := by
    norm_num [memCallResults, _memory_rate_limit, lookupTimes, lookupD, setD,
      pyInt, List.filter]
  refine C8_remaining_monotone "c" 3 60 [1000, 1001] [] ?_ ?_ ?_
  · intro x hx
    exact absurd hx (List.not_mem_nil x)
  · intro u hu u2 hu2
    have h1 : u = 1000 ∨ u = 1001 := by simpa using hu
    have h2 : u2 = 1000 ∨ u2 = 1001 := by simpa using hu2
    rcases h1 with h1 | h1 <;> rcases h2 with h2 | h2 <;>
      rw [h1, h2] <;> norm_num
  · intro r hr
    rw [hres] at hr
    rcases List.mem_cons.mp hr with h1 | h1
    · rw [h1]
    · have h2 : r = ⟨true, 1, 3, 1061⟩ := List.mem_singleton.mp h1
      rw [h2]

/-- A `_memory_rate_limit` call leaves every other client's recorded list
unchanged. -/
theorem mem_rate_limit_other (cid : String) (L w : Int) (t : ℚ) (s : Storage)
    (c2 : String) (h : cid ≠ c2) :
    lookupTimes (_memory_rate_limit cid L w t s).2 c2 = lookupTimes s c2 := by
  by_cases hb : (((lookupTimes s cid).filter
      (fun x => decide (t - (w : ℚ) < x))).length : Int) < L
  · simp only [mem_rate_limit_pos cid L w t s hb]
    exact lookupTimes_setD_ne s cid c2 _ h
  · simp only [mem_rate_limit_neg cid L w t s hb]
    exact lookupTimes_setD_ne s cid c2 _ h

/-- If every client's recorded list has at most `L` entries, this still holds
after any further sequence of `_memory_rate_limit` calls with limit `L`. -/
theorem runMemCalls_bound_aux (L : Int) :
    ∀ (calls : List (String × Int × ℚ)) (s : Storage),
      (∀ c, ((lookupTimes s c).length : Int) ≤ L) →
      ∀ c, ((lookupTimes (runMemCalls L calls s) c).length : Int) ≤ L := by
  intro calls
  induction calls with
  | nil => intro s hs c; exact hs c
  | cons hd rest ih =>
    obtain ⟨cid, w, t⟩ := hd
    intro s hs c
    simp only [runMemCalls]
    apply ih
    intro c2
    by_cases hc : cid = c2
    · subst hc
      by_cases hb : (((lookupTimes s cid).filter
          (fun x => decide (t - (w : ℚ) < x))).length : Int) < L
      · simp only [mem_rate_limit_pos cid L w t s hb, lookupTimes_setD_self,
          List.length_append, List.length_singleton]
        push_cast
        omega
      · simp only [mem_rate_limit_neg cid L w t s hb, lookupTimes_setD_self]
        have h1 := List.length_filter_le
          (fun x => decide (t - (w : ℚ) < x)) (lookupTimes s cid)
        have h2 := hs cid
        have h1i : ((((lookupTimes s cid).filter
            (fun x => decide (t - (w : ℚ) < x))).length : Int)) ≤
            ((lookupTimes s cid).length : Int) := by exact_mod_cast h1
        omega
    · rw [mem_rate_limit_other cid L w t s c2 hc]
      exact hs c2

/-- C9: starting from an empty in-process store, across every sequence of
`_memory_rate_limit` calls sharing a fixed limit `L ≥ 0`, no identity's
stored timestamp list ever exceeds length `L`: an allowed call stores at most
`L` entries, and a denied call appends nothing beyond the pruned list. -/
theorem C9_storage_bound (L : Int) (hL : 0 ≤ L)
    (calls : List (String × Int × ℚ)) (c : String) :
    ((lookupTimes (runMemCalls L calls []) c).length : Int) ≤ L := by
  apply runMemCalls_bound_aux L calls []
  intro c2
  simpa [lookupTimes] using hL

/-- Witness for C9: two calls with limit 1 for one client leave at most one
stored timestamp. -/
theorem C9_storage_bound_witness :
    ((lookupTimes (runMemCalls 1 [("a", 60, 0), ("a", 60, 0)] []) "a").length
      : Int) ≤ 1 :=
  C9_storage_bound 1 (by norm_num) [("a", 60, 0), ("a", 60, 0)] "a"

/-- C5: fallback-store round-trip with expiry — after `set_cache k v ttl` at
time `t` (shared store unreachable), a `get_cache k` before `t + ttl` returns
a value equal to `v`, and a `get_cache k` at or after `t + ttl` returns
absent (`None`) and evicts the expired entry from the fallback store. -/
theorem C5_cache_roundtrip (k : String) (v : PyVal) (ttl : Int) (t tg : ℚ)
    (st : CacheState) (b : Bool) (st1 : CacheState)
    (hred : st.redisUp = false)
    (hser : jsonSerializable v = true)
    (httl : 0 < ttl)
    (hset : set_cache k v ttl t st = Except.ok (b, st1)) :
    (tg < t + (ttl : ℚ) → get_cache k tg st1 = (v, st1)) ∧
    (t + (ttl : ℚ) ≤ tg →
      (get_cache k tg st1).1 = PyVal.none ∧
      (get_cache k tg st1).2.mem = delD st1.mem k) := by
  have hst1 : st1 =
      ⟨false, st.redisStore, setD st.mem k (v, t + (ttl : ℚ))⟩ := by
    unfold set_cache at hset
    rw [hred] at hset
    simp only [Bool.false_eq_true, if_false, Except.ok.injEq,
      Prod.mk.injEq] at hset
    exact hset.2.symm
  have hlook : lookupD st1.mem k = Option.some (v, t + (ttl : ℚ)) := by
    rw [hst1]
    exact lookupD_setD_self st.mem k _
  have hred1 : st1.redisUp = false := by
    rw [hst1]
  constructor
  · intro hlive
    unfold get_cache mem_get
    rw [hred1, hlook]
    simp only [Bool.false_eq_true, if_false]
    rw [if_pos hlive]
  · intro hexp
    unfold get_cache mem_get
    rw [hred1, hlook]
    simp only [Bool.false_eq_true, if_false]
    rw [if_neg (by linarith : ¬ tg < t + (ttl : ℚ))]
    exact ⟨rfl, rfl⟩

/-- Witness for C5: the spec's concrete scenario — caching
`{"id": 42}` under `"listing:42"` with a 1-second TTL at time 0; a read at
time 0 returns the value, a read at time 2 returns absent. -/
theorem C5_cache_roundtrip_witness :
    get_cache "listing:42" 0
        ⟨false, [],
          [("listing:42", (PyVal.dictI [("id", 42)], 0 + ((1 : Int) : ℚ)))]⟩ =
      (PyVal.dictI [("id", 42)],
        ⟨false, [],
          [("listing:42", (PyVal.dictI [("id", 42)], 0 + ((1 : Int) : ℚ)))]⟩) ∧
    (get_cache "listing:42" 2
        ⟨false, [],
          [("listing:42", (PyVal.dictI [("id", 42)], 0 + ((1 : Int) : ℚ)))]⟩).1 =
      PyVal.none :=
  ⟨(C5_cache_roundtrip "listing:42" (PyVal.dictI [("id", 42)]) 1 0 0
      ⟨false, [], []⟩ true
      ⟨false, [],
        [("listing:42", (PyVal.dictI [("id", 42)], 0 + ((1 : Int) : ℚ)))]⟩
      rfl rfl (by norm_num) rfl).1 (by norm_num),
    ((C5_cache_roundtrip "listing:42" (PyVal.dictI [("id", 42)]) 1 0 2
      ⟨false, [], []⟩ true
      ⟨false, [],
        [("listing:42", (PyVal.dictI [("id", 42)], 0 + ((1 : Int) : ℚ)))]⟩
      rfl rfl (by norm_num) rfl).2 (by norm_num)).1⟩

/-- C6: with the shared store unreachable, `invalidate_cache` removes from
the fallback store exactly the keys containing the wildcard-stripped pattern
as a substring, counting one per removed key; in particular, after caching
`listing:1`, `listing:2` and `user:1`, invalidating `"listing:*"` removes
exactly the two listing keys (count 2) and leaves `user:1` retrievable. -/
theorem C6_invalidate_pattern (X Y Z : PyVal) (t : ℚ) (pattern : String)
    (st : CacheState) (hred : st.redisUp = false) :
    ((invalidate_cache pattern st).2.mem =
        st.mem.filter (fun e => ¬ strIn (stripStar pattern) e.1) ∧
      (invalidate_cache pattern st).1 =
        ((st.mem.filter (fun e => strIn (stripStar pattern) e.1)).length
          : Int)) ∧
    (∀ b1 b2 b3 st1 st2 st3,
      set_cache "listing:1" X 60 t ⟨false, [], []⟩ = Except.ok (b1, st1) →
      set_cache "listing:2" Y 60 t st1 = Except.ok (b2, st2) →
      set_cache "user:1" Z 60 t st2 = Except.ok (b3, st3) →
      (invalidate_cache "listing:*" st3).1 = 2 ∧
      (get_cache "user:1" t (invalidate_cache "listing:*" st3).2).1 = Z ∧
      (get_cache "listing:1" t (invalidate_cache "listing:*" st3).2).1 =
        PyVal.none ∧
      (get_cache "listing:2" t (invalidate_cache "listing:*" st3).2).1 =
        PyVal.none) := by
  constructor
  · unfold invalidate_cache
    rw [hred]
    simp
  · intro b1 b2 b3 st1 st2 st3 h1 h2 h3
    unfold set_cache at h1
    simp only [Bool.false_eq_true, if_false, Except.ok.injEq,
      Prod.mk.injEq] at h1
    have hst1 : st1 = ⟨false, [],
        [("listing:1", (X, t + ((60 : Int) : ℚ)))]⟩ := h1.2.symm
    subst hst1
    unfold set_cache at h2
    simp only [Bool.false_eq_true, if_false, Except.ok.injEq,
      Prod.mk.injEq] at h2
    have hst2 : st2 = ⟨false, [],
        [("listing:1", (X, t + ((60 : Int) : ℚ))),
          ("listing:2", (Y, t + ((60 : Int) : ℚ)))]⟩ := by
      rw [← h2.2]
      rfl
    subst hst2
    unfold set_cache at h3
    simp only [Bool.false_eq_true, if_false, Except.ok.injEq,
      Prod.mk.injEq] at h3
    have hst3 : st3 = ⟨false, [],
        [("listing:1", (X, t + ((60 : Int) : ℚ))),
          ("listing:2", (Y, t + ((60 : Int) : ℚ))),
          ("user:1", (Z, t + ((60 : Int) : ℚ)))]⟩ := by
      rw [← h3.2]
      rfl
    subst hst3
    have hinv : invalidate_cache "listing:*" ⟨false, [],
        [("listing:1", (X, t + ((60 : Int) : ℚ))),
          ("listing:2", (Y, t + ((60 : Int) : ℚ))),
          ("user:1", (Z, t + ((60 : Int) : ℚ)))]⟩ =
        (2, ⟨false, [], [("user:1", (Z, t + ((60 : Int) : ℚ)))]⟩) := rfl
    rw [hinv]
    have hlive : t < t + ((60 : Int) : ℚ) := by norm_num
    refine ⟨rfl, ?_, rfl, rfl⟩
    unfold get_cache mem_get
    simp only [Bool.false_eq_true, if_false]
    rw [show lookupD [("user:1", (Z, t + ((60 : Int) : ℚ)))] "user:1" =
        Option.some (Z, t + ((60 : Int) : ℚ)) from rfl]
    simp [hlive]

/-- Witness for C6: the concrete three-key scenario with integer payloads at
time 0 — invalidating `"listing:*"` returns count 2, leaves `user:1`
retrievable and both listing keys absent. -/
theorem C6_invalidate_pattern_witness :
    (invalidate_cache "listing:*" ⟨false, [],
        [("listing:1", (PyVal.int 1, 0 + ((60 : Int) : ℚ))),
          ("listing:2", (PyVal.int 2, 0 + ((60 : Int) : ℚ))),
          ("user:1", (PyVal.int 3, 0 + ((60 : Int) : ℚ)))]⟩).1 = 2 ∧
    (get_cache "user:1" 0 (invalidate_cache "listing:*" ⟨false, [],
        [("listing:1", (PyVal.int 1, 0 + ((60 : Int) : ℚ))),
          ("listing:2", (PyVal.int 2, 0 + ((60 : Int) : ℚ))),
          ("user:1", (PyVal.int 3, 0 + ((60 : Int) : ℚ)))]⟩).2).1 =
      PyVal.int 3 ∧
    (get_cache "listing:1" 0 (invalidate_cache "listing:*" ⟨false, [],
        [("listing:1", (PyVal.int 1, 0 + ((60 : Int) : ℚ))),
          ("listing:2", (PyVal.int 2, 0 + ((60 : Int) : ℚ))),
          ("user:1", (PyVal.int 3, 0 + ((60 : Int) : ℚ)))]⟩).2).1 =
      PyVal.none ∧
    (get_cache "listing:2" 0 (invalidate_cache "listing:*" ⟨false, [],
        [("listing:1", (PyVal.int 1, 0 + ((60 : Int) : ℚ))),
          ("listing:2", (PyVal.int 2, 0 + ((60 : Int) : ℚ))),
          ("user:1", (PyVal.int 3, 0 + ((60 : Int) : ℚ)))]⟩).2).1 =
      PyVal.none :=
  (C6_invalidate_pattern (PyVal.int 1) (PyVal.int 2) (PyVal.int 3) 0
    "listing:*" ⟨false, [], []⟩ rfl).2 true true true _ _ _ rfl rfl rfl

/-- `get_cache` never changes the reachability flag or the shared store. -/
theorem get_cache_redisUp (k : String) (tg : ℚ) (st : CacheState) :
    (get_cache k tg st).2.redisUp = st.redisUp := by
  unfold get_cache mem_get
  by_cases hr : st.redisUp = true
  · rw [hr]
    cases hl : lookupD st.redisStore ("cache:" ++ k) with
    | none =>
      cases hm : lookupD st.mem k with
      | none => simp [hr]
      | some p =>
        obtain ⟨v, e⟩ := p
        by_cases ht : tg < e <;> simp [ht, hr]
    | some p =>
      obtain ⟨v, e⟩ := p
      by_cases ht : tg < e
      · simp [ht, hr]
      · simp only [if_neg ht]
        cases hm : lookupD st.mem k with
        | none => simp [hr]
        | some q =>
          obtain ⟨v2, e2⟩ := q
          by_cases ht2 : tg < e2 <;> simp [ht2, hr]
  · have hr2 : st.redisUp = false := by
      cases h : st.redisUp
      · rfl
      · exact absurd h hr
    rw [hr2]
    cases hm : lookupD st.mem k with
    | none => simp [hr2]
    | some p =>
      obtain ⟨v, e⟩ := p
      by_cases ht : tg < e <;> simp [ht, hr2]

/-- In the fallback state, a key whose stored value (if any) is `None` reads
back as `None` — indistinguishable from a missing key. -/
theorem get_cache_mem_none (k : String) (tg : ℚ) (st : CacheState)
    (hred : st.redisUp = false)
    (h : ∀ p, lookupD st.mem k = Option.some p → p.1 = PyVal.none) :
    (get_cache k tg st).1 = PyVal.none := by
  unfold get_cache mem_get
  rw [hred]
  simp only [Bool.false_eq_true, if_false]
  cases hl : lookupD st.mem k with
  | none => rfl
  | some p =>
    obtain ⟨v, e⟩ := p
    have hv : v = PyVal.none := h (v, e) hl
    by_cases ht : tg < e <;> simp [ht, hv]

/-- With the shared store unreachable, `set_cache` always succeeds and puts
the raw value in the fallback store with expiry `now + ttl`. -/
theorem set_cache_fallback (k : String) (v : PyVal) (ttl : Int) (t : ℚ)
    (st : CacheState) (hred : st.redisUp = false) :
    set_cache k v ttl t st = Except.ok (true,
      ⟨false, st.redisStore, setD st.mem k (v, t + (ttl : ℚ))⟩) := by
  unfold set_cache
  rw [hred]
  simp only [Bool.false_eq_true, if_false]

/-- C10: a stored value of `None` is indistinguishable from a cache miss at
the public interface — after `set_cache k None ttl` (fallback state), a
`get_cache k` returns `None` exactly as for an absent key; consequently a
`cached`-decorated function whose underlying call returns `None` is invoked
on every call: a call that starts from a miss invokes the function, and the
state it leaves still reads back as a miss for that cache key at any later
time. -/
theorem C10_none_is_miss (k : String) (ttl : Int) (t tg : ℚ)
    (st : CacheState) (hred : st.redisUp = false) :
    (∀ b st1, set_cache k PyVal.none ttl t st = Except.ok (b, st1) →
      (get_cache k tg st1).1 = PyVal.none) ∧
    (lookupD st.mem k = Option.none → (get_cache k tg st).1 = PyVal.none) ∧
    (∀ ( key_prefix fname : String) (kwargs : List (String × String))
        (func : Unit → PyVal) (r : PyVal) (inv : Bool) (st2 : CacheState),
      func () = PyVal.none →
      (get_cache (buildCacheKey key_prefix fname kwargs) t st).1 =
        PyVal.none →
      cached_wrapper key_prefix fname kwargs ttl func t st =
        Except.ok (r, inv, st2) →
      inv = true ∧ r = PyVal.none ∧
        (get_cache (buildCacheKey key_prefix fname kwargs) tg st2).1 =
          PyVal.none) := by
  refine ⟨?_, ?_, ?_⟩
  · intro b st1 hset
    rw [set_cache_fallback k PyVal.none ttl t st hred] at hset
    simp only [Except.ok.injEq, Prod.mk.injEq] at hset
    apply get_cache_mem_none
    · rw [← hset.2]
    · intro p hp
      rw [← hset.2] at hp
      rw [show (⟨false, st.redisStore,
          setD st.mem k (PyVal.none, t + (ttl : ℚ))⟩ : CacheState).mem =
          setD st.mem k (PyVal.none, t + (ttl : ℚ)) from rfl,
        lookupD_setD_self] at hp
      rw [← Option.some.inj hp]
  · intro hnone
    apply get_cache_mem_none k tg st hred
    intro p hp
    rw [hnone] at hp
    exact absurd hp (by simp)
  · intro kp fn kwargs func r inv st2 hfunc hmiss hwrap
    have hred2 : (get_cache (buildCacheKey kp fn kwargs) t st).2.redisUp
        = false := (get_cache_redisUp (buildCacheKey kp fn kwargs) t st).trans
      hred
    unfold cached_wrapper at hwrap
    simp only [hmiss, ne_eq, not_true_eq_false, if_false] at hwrap
    rw [set_cache_fallback _ _ _ _ _ hred2] at hwrap
    simp only [Except.ok.injEq, Prod.mk.injEq] at hwrap
    obtain ⟨hr, hinv, hst2⟩ := hwrap
    refine ⟨hinv.symm, ?_, ?_⟩
    · rw [← hr, hfunc]
    · apply get_cache_mem_none
      · rw [← hst2]
      · intro p hp
        rw [← hst2] at hp
        rw [show (⟨false,
            (get_cache (buildCacheKey kp fn kwargs) t st).2.redisStore,
            setD (get_cache (buildCacheKey kp fn kwargs) t st).2.mem
              (buildCacheKey kp fn kwargs) (func (), t + (ttl : ℚ))⟩ :
            CacheState).mem =
            setD (get_cache (buildCacheKey kp fn kwargs) t st).2.mem
              (buildCacheKey kp fn kwargs) (func (), t + (ttl : ℚ)) from rfl,
          lookupD_setD_self] at hp
        rw [← Option.some.inj hp, hfunc]

/-- Witness for C10: a `cached`-wrapped function returning `None` is invoked
on a first call from the empty fallback state, and the resulting state still
reads back as a miss for its cache key one second later. -/
theorem C10_none_is_miss_witness :
    true = true ∧ PyVal.none = PyVal.none ∧
    (get_cache "p:f" 1
        ⟨false, [], [("p:f", (PyVal.none, 0 + ((60 : Int) : ℚ)))]⟩).1 =
      PyVal.none :=
  (C10_none_is_miss "x" 60 0 1 ⟨false, [], []⟩ rfl).2.2 "p" "f" []
    (fun _ => PyVal.none) PyVal.none true
    ⟨false, [], [("p:f", (PyVal.none, 0 + ((60 : Int) : ℚ)))]⟩ rfl rfl rfl
